import Mathlib

/-!
Shallow embedding of the offer bandit in src/src/lib/q-learning-bandit.ts.

TypeScript numbers are modelled as rationals (the programs in question only
ever use exact decimal constants and field arithmetic), timestamps as natural
numbers supplied explicitly by the caller (the source reads the wall clock via
new Date), and the two plain-object records qValues / actionCounts as
association lists over String keys, which matches JavaScript object semantics
for the operations the source performs: hasOwnProperty is key membership,
property read is lookup of the (unique) entry, property write replaces the
entry in place when the key is present and appends it otherwise, and
Object.keys / Object.values are the key and value projections in insertion
order. Math.random in selectAction is modelled by passing the two random
draws (explore flag, explored index) as explicit arguments; out-of-range
indexing and the TypeError thrown by reduce on an empty array are modelled
with Option.
-/

/-- One candidate retention offer, mirroring the exported Offer interface. -/
inductive OfferType where
  | discount
  | pause
  | swap
  | extension
deriving DecidableEq, Repr

structure Offer where
  id : String
  type : OfferType
  value : ℚ
  cost : ℚ
  description : String
deriving DecidableEq, Repr

/-- The exported BanditState interface: the persistence snapshot. Note the
source interface has exactly these four fields. -/
structure BanditState where
  qValues : List (String × ℚ)
  actionCounts : List (String × ℚ)
  totalReward : ℚ
  lastUpdated : ℕ
deriving DecidableEq, Repr

/-- JavaScript object property read obj[k]: value of the first entry with key
k (objects hold each key once); missing keys never reach a read in the
guarded source paths, and default to 0 here. -/
def recGet : List (String × ℚ) → String → ℚ
  | [], _ => 0
  | (k', v) :: rest, k => if k' = k then v else recGet rest k

/-- JavaScript object property write obj[k] = v: replace the entry in place
when the key is present, append it otherwise. -/
def recSet : List (String × ℚ) → String → ℚ → List (String × ℚ)
  | [], k, v => [(k, v)]
  | (k', v') :: rest, k, v =>
      if k' = k then (k, v) :: rest else (k', v') :: recSet rest k v

/-- Object.keys: the keys in insertion order. -/
def recKeys (r : List (String × ℚ)) : List String :=
  r.map Prod.fst

/-- Object.values: the values in insertion order. -/
def recValues (r : List (String × ℚ)) : List ℚ :=
  r.map Prod.snd

/-- The mutable instance fields of class QLearningBandit. -/
structure QLearningBandit where
  arms : List Offer
  qValues : List (String × ℚ)
  actionCounts : List (String × ℚ)
  alpha : ℚ
  gamma : ℚ
  epsilon : ℚ
  totalReward : ℚ
  lastUpdated : ℕ
deriving DecidableEq, Repr

namespace QLearningBandit

/-- The arms.forEach loop at the end of the constructor: sets
qValues[arm.id] = 0 and actionCounts[arm.id] = 0 for each arm in order. -/
def initArms : List Offer → QLearningBandit → QLearningBandit
  | [], b => b
  | arm :: rest, b =>
      initArms rest
        { b with qValues := recSet b.qValues arm.id 0,
                 actionCounts := recSet b.actionCounts arm.id 0 }

/-- The constructor: stores the arm list and the three hyperparameters,
zeroes the record fields and the cumulative reward, stamps lastUpdated with
the current time, then runs the forEach initialization. No validation of any
kind is performed on the arm list. -/
def make (arms : List Offer) (alpha gamma epsilon : ℚ) (now : ℕ) :
    QLearningBandit :=
  initArms arms
    { arms := arms, qValues := [], actionCounts := [], alpha := alpha,
      gamma := gamma, epsilon := epsilon, totalReward := 0,
      lastUpdated := now }

/-- The constructor with its default parameters alpha = 0.1, gamma = 0.9,
epsilon = 0.1. -/
def makeDefault (arms : List Offer) (now : ℕ) : QLearningBandit :=
  make arms (1/10) (9/10) (1/10) now

/-- The exploit branch of selectAction: Object.keys(qValues).reduce picks the
key with the highest Q-value (first such key under the left fold); reduce on
an empty key array throws a TypeError, modelled as none; the final
find-or-first falls back to arms[0], undefined (none) when arms is empty. -/
def selectActionExploit (b : QLearningBandit) : Option Offer :=
  match recKeys b.qValues with
  | [] => none
  | k :: ks =>
      let bestArmId :=
        ks.foldl (fun a c => if recGet b.qValues a > recGet b.qValues c then a else c) k
      match b.arms.find? (fun arm => arm.id == bestArmId) with
      | some arm => some arm
      | none => b.arms.get? 0

/-- selectAction with the two Math.random draws made explicit: shouldExplore
is the comparison of the first draw with epsilon, and randomIndex is the
floor of the second draw times arms.length (so any index below arms.length,
and 0 when arms is empty). arms[randomIndex] is undefined (none) past the
end. -/
def selectAction (b : QLearningBandit) (shouldExplore : Bool)
    (randomIndex : ℕ) : Option Offer :=
  if shouldExplore then b.arms.get? randomIndex
  else selectActionExploit b

/-- update: when qValues.hasOwnProperty(actionId) fails, warn and return with
no state change; otherwise apply the TD update to the Q-value, increment the
action count, accumulate the reward and stamp lastUpdated. -/
def update (b : QLearningBandit) (actionId : String) (reward : ℚ)
    (now : ℕ) : QLearningBandit :=
  if actionId ∈ recKeys b.qValues then
    let oldQ := recGet b.qValues actionId
    let newQ := oldQ + b.alpha * (reward - oldQ)
    { b with qValues := recSet b.qValues actionId newQ,
             actionCounts :=
               recSet b.actionCounts actionId (recGet b.actionCounts actionId + 1),
             totalReward := b.totalReward + reward,
             lastUpdated := now }
  else b

/-- The user response enumeration of calculateReward. -/
inductive UserResponse where
  | accepted
  | declined
  | ignored
deriving DecidableEq, Repr

/-- calculateReward: looks the action up in the configured arms (returning 0
when absent), computes the base reward from the response using the matched
arm cost, subtracts the secondary penalty proportional to the offerCost
argument, and clamps into the closed interval from -1 to 1. -/
def calculateReward (b : QLearningBandit) (actionId : String)
    (userResponse : UserResponse) (mrrValue offerCost : ℚ) : ℚ :=
  match b.arms.find? (fun arm => arm.id == actionId) with
  | none => 0
  | some action =>
      let baseReward : ℚ :=
        match userResponse with
        | .accepted => mrrValue * (1 - action.cost)
        | .declined => -(1/10)
        | .ignored => 0
      let costAdjustedReward := baseReward - offerCost * (1/10)
      max (-1) (min 1 costAdjustedReward)

/-- getState: a shallow copy of the four persisted fields. -/
def getState (b : QLearningBandit) : BanditState :=
  { qValues := b.qValues, actionCounts := b.actionCounts,
    totalReward := b.totalReward, lastUpdated := b.lastUpdated }

/-- loadState: wholesale replacement of the four persisted fields; the other
instance fields (arms, alpha, gamma, epsilon) are untouched. -/
def loadState (b : QLearningBandit) (state : BanditState) :
    QLearningBandit :=
  { b with qValues := state.qValues, actionCounts := state.actionCounts,
           totalReward := state.totalReward,
           lastUpdated := state.lastUpdated }

/-- One row of the armPerformance array in getMetrics. -/
structure ArmPerformance where
  id : String
  type : OfferType
  qValue : ℚ
  count : ℚ
  avgReward : ℚ
deriving DecidableEq, Repr

/-- The record returned by getMetrics. -/
structure BanditMetrics where
  totalActions : ℚ
  avgReward : ℚ
  explorationRate : ℚ
  armPerformance : List ArmPerformance
  lastUpdated : ℕ
deriving DecidableEq, Repr

/-- getMetrics: totals the action counts, guards the two divisions by zero,
and reports one row per configured arm plus the exploration rate and the
last-updated stamp. -/
def getMetrics (b : QLearningBandit) : BanditMetrics :=
  let totalActions := (recValues b.actionCounts).foldl (· + ·) 0
  let avgReward := if totalActions > 0 then b.totalReward / totalActions else 0
  let armPerformance := b.arms.map fun arm =>
    { id := arm.id, type := arm.type,
      qValue := recGet b.qValues arm.id,
      count := recGet b.actionCounts arm.id,
      avgReward :=
        if recGet b.actionCounts arm.id > 0 then
          recGet b.qValues arm.id / recGet b.actionCounts arm.id
        else 0 : ArmPerformance }
  { totalActions := totalActions, avgReward := avgReward,
    explorationRate := b.epsilon, armPerformance := armPerformance,
    lastUpdated := b.lastUpdated }

/-- decayEpsilon: epsilon becomes the larger of 0.01 and epsilon * decayRate
(the source default for decayRate is 0.99). -/
def decayEpsilon (b : QLearningBandit) (decayRate : ℚ) : QLearningBandit :=
  { b with epsilon := max (1/100) (b.epsilon * decayRate) }

/-- A finite sequence of update calls, applied in order: the reachable states
of the claim about reachability under update are exactly the results of
runUpdates applied to a freshly constructed bandit. -/
def runUpdates : List (String × ℚ × ℕ) → QLearningBandit → QLearningBandit
  | [], b => b
  | u :: rest, b => runUpdates rest (update b u.1 u.2.1 u.2.2)

/-- One mutating operation of the public interface. -/
inductive BanditOp where
  | upd (actionId : String) (reward : ℚ) (now : ℕ)
  | decay (decayRate : ℚ)
  | load (s : BanditState)
deriving DecidableEq, Repr

/-- Apply one mutating operation. -/
def applyOp (b : QLearningBandit) : BanditOp → QLearningBandit
  | .upd actionId reward now => update b actionId reward now
  | .decay decayRate => decayEpsilon b decayRate
  | .load s => loadState b s

/-- Apply a finite sequence of mutating operations in order. -/
def runOps : List BanditOp → QLearningBandit → QLearningBandit
  | [], b => b
  | op :: rest, b => runOps rest (applyOp b op)

end QLearningBandit

/-- The exported DEFAULT_OFFERS configuration. -/
def DEFAULT_OFFERS : List Offer :=
  [ { id := "discount_10", type := .discount, value := 10, cost := 1/10,
      description := "10% discount for 3 months" },
    { id := "discount_20", type := .discount, value := 20, cost := 1/5,
      description := "20% discount for 2 months" },
    { id := "pause_30", type := .pause, value := 30, cost := 1/20,
      description := "Pause subscription for 30 days" },
    { id := "pause_60", type := .pause, value := 60, cost := 1/10,
      description := "Pause subscription for 60 days" },
    { id := "extension_14", type := .extension, value := 14, cost := 1/50,
      description := "14-day free extension" },
    { id := "swap_plan", type := .swap, value := 0, cost := 3/20,
      description := "Downgrade to lower plan" } ]

open QLearningBandit

/-! ### Association-list lemmas: JavaScript record reads and writes -/

theorem recGet_recSet_self (r : List (String × ℚ)) (k : String) (v : ℚ) :
    recGet (recSet r k v) k = v := by
  induction r with
  | nil => simp [recSet, recGet]
  | cons p rest ih =>
      obtain ⟨k', v'⟩ := p
      by_cases h : k' = k
      · simp [recSet, recGet, h]
      · simp [recSet, recGet, h, ih]

theorem recGet_recSet_ne (r : List (String × ℚ)) (k : String) (v : ℚ)
    (k'' : String) (h : k'' ≠ k) :
    recGet (recSet r k v) k'' = recGet r k'' := by
  have hne : ¬ k = k'' := fun hh => h hh.symm
  induction r with
  | nil => simp [recSet, recGet, hne]
  | cons p rest ih =>
      obtain ⟨k', v'⟩ := p
      by_cases hk : k' = k
      · subst hk
        simp [recSet, recGet, hne]
      · simp [recSet, recGet, hk, ih]

theorem mem_recKeys_recSet (r : List (String × ℚ)) (k : String) (v : ℚ)
    (k'' : String) :
    k'' ∈ recKeys (recSet r k v) ↔ k'' ∈ recKeys r ∨ k'' = k := by
  induction r with
  | nil => simp [recSet, recKeys]
  | cons p rest ih =>
      obtain ⟨k', v'⟩ := p
      by_cases h : k' = k
      · subst h
        simp only [recKeys] at ih ⊢
        simp [recSet, List.mem_cons]
        tauto
      · simp only [recKeys] at ih ⊢
        simp only [recSet, if_neg h, List.map_cons, List.mem_cons]
        rw [ih]
        tauto

/-! ### Constructor lemmas -/

theorem initArms_arms (arms : List Offer) :
    ∀ b : QLearningBandit, (initArms arms b).arms = b.arms := by
  induction arms with
  | nil => intro b; rfl
  | cons a rest ih => intro b; simp [initArms, ih]

theorem initArms_alpha (arms : List Offer) :
    ∀ b : QLearningBandit, (initArms arms b).alpha = b.alpha := by
  induction arms with
  | nil => intro b; rfl
  | cons a rest ih => intro b; simp [initArms, ih]

theorem initArms_gamma (arms : List Offer) :
    ∀ b : QLearningBandit, (initArms arms b).gamma = b.gamma := by
  induction arms with
  | nil => intro b; rfl
  | cons a rest ih => intro b; simp [initArms, ih]

theorem initArms_epsilon (arms : List Offer) :
    ∀ b : QLearningBandit, (initArms arms b).epsilon = b.epsilon := by
  induction arms with
  | nil => intro b; rfl
  | cons a rest ih => intro b; simp [initArms, ih]

theorem initArms_totalReward (arms : List Offer) :
    ∀ b : QLearningBandit, (initArms arms b).totalReward = b.totalReward := by
  induction arms with
  | nil => intro b; rfl
  | cons a rest ih => intro b; simp [initArms, ih]

theorem initArms_lastUpdated (arms : List Offer) :
    ∀ b : QLearningBandit, (initArms arms b).lastUpdated = b.lastUpdated := by
  induction arms with
  | nil => intro b; rfl
  | cons a rest ih => intro b; simp [initArms, ih]

theorem initArms_mem_qValues (arms : List Offer) :
    ∀ (b : QLearningBandit) (k : String),
      k ∈ recKeys (initArms arms b).qValues ↔
        k ∈ recKeys b.qValues ∨ k ∈ arms.map Offer.id := by
  induction arms with
  | nil => intro b k; simp [initArms]
  | cons a rest ih =>
      intro b k
      simp only [initArms]
      rw [ih]
      simp only [mem_recKeys_recSet, List.map_cons, List.mem_cons]
      tauto

theorem initArms_mem_actionCounts (arms : List Offer) :
    ∀ (b : QLearningBandit) (k : String),
      k ∈ recKeys (initArms arms b).actionCounts ↔
        k ∈ recKeys b.actionCounts ∨ k ∈ arms.map Offer.id := by
  induction arms with
  | nil => intro b k; simp [initArms]
  | cons a rest ih =>
      intro b k
      simp only [initArms]
      rw [ih]
      simp only [mem_recKeys_recSet, List.map_cons, List.mem_cons]
      tauto

theorem make_arms (arms : List Offer) (alpha gamma epsilon : ℚ) (now : ℕ) :
    (make arms alpha gamma epsilon now).arms = arms := by
  simp [make, initArms_arms]

theorem make_alpha (arms : List Offer) (alpha gamma epsilon : ℚ) (now : ℕ) :
    (make arms alpha gamma epsilon now).alpha = alpha := by
  simp [make, initArms_alpha]

theorem make_epsilon (arms : List Offer) (alpha gamma epsilon : ℚ) (now : ℕ) :
    (make arms alpha gamma epsilon now).epsilon = epsilon := by
  simp [make, initArms_epsilon]

theorem make_mem_qValues (arms : List Offer) (alpha gamma epsilon : ℚ)
    (now : ℕ) (k : String) :
    k ∈ recKeys (make arms alpha gamma epsilon now).qValues ↔
      k ∈ arms.map Offer.id := by
  simp only [make]
  rw [initArms_mem_qValues]
  simp [recKeys]

theorem make_mem_actionCounts (arms : List Offer) (alpha gamma epsilon : ℚ)
    (now : ℕ) (k : String) :
    k ∈ recKeys (make arms alpha gamma epsilon now).actionCounts ↔
      k ∈ arms.map Offer.id := by
  simp only [make]
  rw [initArms_mem_actionCounts]
  simp [recKeys]

/-! ### Update lemmas -/

theorem update_of_mem (b : QLearningBandit) (actionId : String) (reward : ℚ)
    (now : ℕ) (h : actionId ∈ recKeys b.qValues) :
    update b actionId reward now =
      { b with
        qValues := recSet b.qValues actionId
          (recGet b.qValues actionId
            + b.alpha * (reward - recGet b.qValues actionId)),
        actionCounts := recSet b.actionCounts actionId
          (recGet b.actionCounts actionId + 1),
        totalReward := b.totalReward + reward,
        lastUpdated := now } := by
  simp [update, h]

theorem update_of_not_mem (b : QLearningBandit) (actionId : String)
    (reward : ℚ) (now : ℕ) (h : actionId ∉ recKeys b.qValues) :
    update b actionId reward now = b := by
  simp [update, h]

theorem update_epsilon (b : QLearningBandit) (actionId : String) (reward : ℚ)
    (now : ℕ) : (update b actionId reward now).epsilon = b.epsilon := by
  by_cases h : actionId ∈ recKeys b.qValues
  · rw [update_of_mem b actionId reward now h]
  · rw [update_of_not_mem b actionId reward now h]

theorem update_arms (b : QLearningBandit) (actionId : String) (reward : ℚ)
    (now : ℕ) : (update b actionId reward now).arms = b.arms := by
  by_cases h : actionId ∈ recKeys b.qValues
  · rw [update_of_mem b actionId reward now h]
  · rw [update_of_not_mem b actionId reward now h]

theorem update_mem_qValues (b : QLearningBandit) (actionId : String)
    (reward : ℚ) (now : ℕ) (k : String) :
    k ∈ recKeys (update b actionId reward now).qValues ↔
      k ∈ recKeys b.qValues := by
  by_cases h : actionId ∈ recKeys b.qValues
  · rw [update_of_mem b actionId reward now h]
    simp only [mem_recKeys_recSet]
    constructor
    · rintro (hh | rfl)
      · exact hh
      · exact h
    · exact Or.inl
  · rw [update_of_not_mem b actionId reward now h]

theorem update_mem_actionCounts (b : QLearningBandit) (actionId : String)
    (reward : ℚ) (now : ℕ)
    (hInv : ∀ k, k ∈ recKeys b.qValues ↔ k ∈ recKeys b.actionCounts)
    (k : String) :
    k ∈ recKeys (update b actionId reward now).actionCounts ↔
      k ∈ recKeys b.actionCounts := by
  by_cases h : actionId ∈ recKeys b.qValues
  · rw [update_of_mem b actionId reward now h]
    simp only [mem_recKeys_recSet]
    constructor
    · rintro (hh | rfl)
      · exact hh
      · exact (hInv _).mp h
    · exact Or.inl
  · rw [update_of_not_mem b actionId reward now h]

theorem runUpdates_mem_keys (us : List (String × ℚ × ℕ)) :
    ∀ b : QLearningBandit,
      (∀ k, k ∈ recKeys b.qValues ↔ k ∈ recKeys b.actionCounts) →
      ∀ k, (k ∈ recKeys (runUpdates us b).qValues ↔ k ∈ recKeys b.qValues)
        ∧ (k ∈ recKeys (runUpdates us b).actionCounts ↔
            k ∈ recKeys b.actionCounts) := by
  induction us with
  | nil => intro b _ k; exact ⟨Iff.rfl, Iff.rfl⟩
  | cons u rest ih =>
      intro b hInv k
      have hInv' : ∀ k, k ∈ recKeys (update b u.1 u.2.1 u.2.2).qValues ↔
          k ∈ recKeys (update b u.1 u.2.1 u.2.2).actionCounts := by
        intro k
        rw [update_mem_qValues, update_mem_actionCounts b u.1 u.2.1 u.2.2 hInv]
        exact hInv k
      have hrec := ih (update b u.1 u.2.1 u.2.2) hInv' k
      refine ⟨?_, ?_⟩
      · simpa only [runUpdates, update_mem_qValues] using hrec.1
      · simpa only [runUpdates,
          update_mem_actionCounts b u.1 u.2.1 u.2.2 hInv] using hrec.2

/-! ### Epsilon lemmas for the operation sequences -/

theorem applyOp_epsilon_bounds (b : QLearningBandit) (op : BanditOp)
    (h0 : 0 ≤ b.epsilon) (h1 : b.epsilon ≤ 1)
    (hr : ∀ rate, op = BanditOp.decay rate → 0 ≤ rate ∧ rate ≤ 1) :
    0 ≤ (applyOp b op).epsilon ∧ (applyOp b op).epsilon ≤ 1 := by
  cases op with
  | upd actionId reward now =>
      simpa only [applyOp, update_epsilon] using ⟨h0, h1⟩
  | decay rate =>
      obtain ⟨hr0, hr1⟩ := hr rate rfl
      constructor
      · exact le_trans (by norm_num) (le_max_left (1/100 : ℚ) (b.epsilon * rate))
      · exact max_le (by norm_num) (mul_le_one₀ h1 hr0 hr1)
  | load s =>
      simpa only [applyOp, loadState] using ⟨h0, h1⟩

theorem runOps_epsilon_bounds (ops : List BanditOp) :
    ∀ b : QLearningBandit, 0 ≤ b.epsilon → b.epsilon ≤ 1 →
      (∀ rate, BanditOp.decay rate ∈ ops → 0 ≤ rate ∧ rate ≤ 1) →
      0 ≤ (runOps ops b).epsilon ∧ (runOps ops b).epsilon ≤ 1 := by
  induction ops with
  | nil => intro b h0 h1 _; exact ⟨h0, h1⟩
  | cons op rest ih =>
      intro b h0 h1 hr
      have hop := applyOp_epsilon_bounds b op h0 h1
        (fun rate heq => hr rate (by rw [heq]; exact List.mem_cons_self _ _))
      exact ih (applyOp b op) hop.1 hop.2
        (fun rate hmem => hr rate (List.mem_cons_of_mem _ hmem))

/-! ### Claim theorems -/

/-- Claim C1: the claim states that constructing a bandit from an empty arm
list is rejected. The constructor performs no validation: at the failing
input, the empty arm list, it returns a fully formed instance, and
selectAction then does have to operate on the empty arm set, where it
produces no offer for every random draw (the exploit branch reduces over an
empty key array, a TypeError in the source; the explore branch indexes past
the end of the empty arms array, undefined in the source). -/
theorem C1_empty_arm_list_not_rejected :
    make [] (1/10) (9/10) (1/10) 0 =
      { arms := [], qValues := [], actionCounts := [], alpha := 1/10,
        gamma := 9/10, epsilon := 1/10, totalReward := 0, lastUpdated := 0 }
    ∧ ∀ (shouldExplore : Bool) (randomIndex : ℕ),
        selectAction (make [] (1/10) (9/10) (1/10) 0) shouldExplore
          randomIndex = none := by
  refine ⟨rfl, ?_⟩
  intro e i
  cases e <;> rfl

/-- Claim C4: calling update with an arm id outside the arm set configured at
construction leaves the entire reachable bandit state unchanged (the source
logs a warning and returns; in this total embedding no exception exists to
propagate). -/
theorem C4_unknown_arm_update_noop (arms : List Offer)
    (alpha gamma epsilon : ℚ) (t0 : ℕ) (us : List (String × ℚ × ℕ))
    (actionId : String) (reward : ℚ) (now : ℕ)
    (h : actionId ∉ arms.map Offer.id) :
    update (runUpdates us (make arms alpha gamma epsilon t0)) actionId
        reward now
      = runUpdates us (make arms alpha gamma epsilon t0) := by
  apply update_of_not_mem
  intro hmem
  have hkeys := runUpdates_mem_keys us (make arms alpha gamma epsilon t0)
    (fun k => by rw [make_mem_qValues, make_mem_actionCounts]) actionId
  rw [hkeys.1, make_mem_qValues] at hmem
  exact h hmem

/-- Witness for C4 at a concrete input: the default offer configuration, no
prior updates, and an arm id that names no configured arm. -/
theorem C4_unknown_arm_update_noop_witness :
    (("unknown_arm") ∉ DEFAULT_OFFERS.map Offer.id)
    ∧ update (runUpdates [] (make DEFAULT_OFFERS (1/10) (9/10) (1/10) 0))
        ("unknown_arm") 1 5
      = runUpdates [] (make DEFAULT_OFFERS (1/10) (9/10) (1/10) 0) :=
  ⟨by decide,
   C4_unknown_arm_update_noop DEFAULT_OFFERS (1/10) (9/10) (1/10) 0 []
     ("unknown_arm") 1 5 (by decide)⟩

/-- Claim C5 counterexample: the snapshot does not contain the exploration
rate, so loadState does not restore it. Loading the snapshot of a bandit
whose rate is one half into a bandit whose rate is three tenths leaves the
rate at three tenths. -/
theorem C5_epsilon_not_in_snapshot_cex :
    (loadState (make [] (1/10) (9/10) (3/10) 0)
        (getState (make [] (1/10) (9/10) (1/2) 0))).epsilon = 3/10
    ∧ (make [] (1/10) (9/10) (1/2) 0).epsilon = 1/2
    ∧ ((3 : ℚ)/10) ≠ ((1 : ℚ)/2) :=
  ⟨rfl, rfl, by norm_num⟩

/-- Claim C5 as amended: the snapshot returned by getState is a structure
holding exactly the value-estimate mapping, the selection-count mapping, the
cumulative reward, and the last-updated timestamp (no exploration rate), and
loadState restores exactly these four fields, leaving the exploration rate
and the immutable configuration of the target instance unchanged. -/
theorem C5_snapshot_fields (b : QLearningBandit) (s : BanditState) :
    getState b =
      { qValues := b.qValues, actionCounts := b.actionCounts,
        totalReward := b.totalReward, lastUpdated := b.lastUpdated }
    ∧ (loadState b s).qValues = s.qValues
    ∧ (loadState b s).actionCounts = s.actionCounts
    ∧ (loadState b s).totalReward = s.totalReward
    ∧ (loadState b s).lastUpdated = s.lastUpdated
    ∧ (loadState b s).epsilon = b.epsilon
    ∧ (loadState b s).arms = b.arms
    ∧ (loadState b s).alpha = b.alpha
    ∧ (loadState b s).gamma = b.gamma :=
  ⟨rfl, rfl, rfl, rfl, rfl, rfl, rfl, rfl, rfl⟩

/-- Claim C6: the snapshot round trip loadState(getState()) leaves every
value observable through getMetrics unchanged. -/
theorem C6_snapshot_round_trip (b : QLearningBandit) :
    getMetrics (loadState b (getState b)) = getMetrics b := rfl

/-- Claim C2: for a configured arm id, update sets that arm value estimate to
the incremental update with learning rate alpha (whose constructor default is
one tenth), increments that arm count by exactly one, adds the reward to the
cumulative total, stamps lastUpdated with the current time, and changes no
other arm estimate or count. -/
theorem C2_update_known_arm (b : QLearningBandit) (armId : String)
    (reward : ℚ) (now : ℕ)
    (hq : armId ∈ recKeys b.qValues) (_hc : armId ∈ recKeys b.actionCounts) :
    recGet (update b armId reward now).qValues armId
        = recGet b.qValues armId
          + b.alpha * (reward - recGet b.qValues armId)
    ∧ recGet (update b armId reward now).actionCounts armId
        = recGet b.actionCounts armId + 1
    ∧ (update b armId reward now).totalReward = b.totalReward + reward
    ∧ (update b armId reward now).lastUpdated = now
    ∧ (∀ k, k ≠ armId →
        recGet (update b armId reward now).qValues k = recGet b.qValues k
        ∧ recGet (update b armId reward now).actionCounts k
            = recGet b.actionCounts k)
    ∧ ∀ (arms : List Offer) (t : ℕ), (makeDefault arms t).alpha = 1/10 := by
  rw [update_of_mem b armId reward now hq]
  refine ⟨recGet_recSet_self _ _ _, recGet_recSet_self _ _ _, rfl, rfl,
    ?_, ?_⟩
  · intro k hk
    exact ⟨recGet_recSet_ne _ _ _ _ hk, recGet_recSet_ne _ _ _ _ hk⟩
  · intro arms t
    exact make_alpha arms (1/10) (9/10) (1/10) t

/-- Witness for C2 at a concrete input: the default configuration and its
first arm. -/
theorem C2_update_known_arm_witness :
    (("discount_10") ∈
        recKeys (make DEFAULT_OFFERS (1/10) (9/10) (1/10) 0).qValues
      ∧ ("discount_10") ∈
        recKeys (make DEFAULT_OFFERS (1/10) (9/10) (1/10) 0).actionCounts)
    ∧ recGet (update (make DEFAULT_OFFERS (1/10) (9/10) (1/10) 0)
          ("discount_10") 1 5).qValues ("discount_10")
        = recGet (make DEFAULT_OFFERS (1/10) (9/10) (1/10) 0).qValues
            ("discount_10")
          + (make DEFAULT_OFFERS (1/10) (9/10) (1/10) 0).alpha
            * (1 - recGet (make DEFAULT_OFFERS (1/10) (9/10) (1/10) 0).qValues
                ("discount_10")) :=
  ⟨⟨by decide, by decide⟩,
   (C2_update_known_arm (make DEFAULT_OFFERS (1/10) (9/10) (1/10) 0)
      ("discount_10") 1 5 (by decide) (by decide)).1⟩

/-- Claim C3: for any arm id (configured or not), any response, any
non-negative revenue value and any cost fraction between zero and one, the
computed reward lies in the closed interval from -1 to 1. -/
theorem C3_reward_bounded (b : QLearningBandit) (actionId : String)
    (userResponse : UserResponse) (mrrValue offerCost : ℚ)
    (_hm : 0 ≤ mrrValue) (_hc0 : 0 ≤ offerCost) (_hc1 : offerCost ≤ 1) :
    -1 ≤ calculateReward b actionId userResponse mrrValue offerCost
    ∧ calculateReward b actionId userResponse mrrValue offerCost ≤ 1 := by
  cases hfind : b.arms.find? (fun arm => arm.id == actionId) with
  | none => simp [calculateReward, hfind]
  | some action =>
      simp only [calculateReward, hfind]
      exact ⟨le_max_left _ _, max_le (by norm_num) (min_le_left _ _)⟩

/-- Witness for C3 at a concrete input. -/
theorem C3_reward_bounded_witness :
    ((0 : ℚ) ≤ 100 ∧ (0 : ℚ) ≤ 1/10 ∧ (1/10 : ℚ) ≤ 1)
    ∧ (-1 ≤ calculateReward (make DEFAULT_OFFERS (1/10) (9/10) (1/10) 0)
          ("discount_10") UserResponse.accepted 100 (1/10)
      ∧ calculateReward (make DEFAULT_OFFERS (1/10) (9/10) (1/10) 0)
          ("discount_10") UserResponse.accepted 100 (1/10) ≤ 1) :=
  ⟨⟨by norm_num, by norm_num, by norm_num⟩,
   C3_reward_bounded _ _ _ _ _ (by norm_num) (by norm_num) (by norm_num)⟩

/-- Claim C7: in every state reachable from construction through any finite
sequence of update calls, the key set of the value-estimate mapping, the key
set of the selection-count mapping, and the configured arm-id set coincide. -/
theorem C7_value_set_invariant (arms : List Offer) (alpha gamma epsilon : ℚ)
    (t0 : ℕ) (us : List (String × ℚ × ℕ)) (k : String) :
    (k ∈ recKeys (runUpdates us (make arms alpha gamma epsilon t0)).qValues
      ↔ k ∈ recKeys
          (runUpdates us (make arms alpha gamma epsilon t0)).actionCounts)
    ∧ (k ∈ recKeys (runUpdates us (make arms alpha gamma epsilon t0)).qValues
      ↔ k ∈ arms.map Offer.id) := by
  have hkeys := runUpdates_mem_keys us (make arms alpha gamma epsilon t0)
    (fun k => by rw [make_mem_qValues, make_mem_actionCounts]) k
  constructor
  · rw [hkeys.1, hkeys.2, make_mem_qValues, make_mem_actionCounts]
  · rw [hkeys.1, make_mem_qValues]

/-- Claim C8 counterexample: calculateReward is not a pure function of its
four arguments. Two instances whose configured arm A differs only in its
stored cost give different rewards for identical arguments, because the base
reward reads the matched arm cost from the instance configuration, not the
armCostFraction argument. -/
theorem C8_reward_depends_on_config_cex :
    calculateReward
        (make [{ id := "A", type := OfferType.discount, value := 10,
                 cost := 0, description := "d" }] (1/10) (9/10) (1/10) 0)
        ("A") UserResponse.accepted 1 0 = 1
    ∧ calculateReward
        (make [{ id := "A", type := OfferType.discount, value := 10,
                 cost := 1, description := "d" }] (1/10) (9/10) (1/10) 0)
        ("A") UserResponse.accepted 1 0 = 0
    ∧ (1 : ℚ) ≠ 0 := by
  refine ⟨?_, ?_, by norm_num⟩
  · unfold calculateReward
    rw [make_arms]
    norm_num [List.find?, max_def, min_def]
  · unfold calculateReward
    rw [make_arms]
    norm_num [List.find?, max_def, min_def]

/-- Claim C8 as amended: calculateReward is a pure function of its four
arguments and of the immutable arm configuration: any two instances with the
same configured arm list return the same value for identical arguments,
independent of all mutable state (estimates, counts, cumulative reward,
exploration rate), and mutate nothing. -/
theorem C8_reward_pure_in_args_and_arms (b1 b2 : QLearningBandit)
    (actionId : String) (userResponse : UserResponse)
    (mrrValue offerCost : ℚ) (h : b1.arms = b2.arms) :
    calculateReward b1 actionId userResponse mrrValue offerCost
      = calculateReward b2 actionId userResponse mrrValue offerCost := by
  unfold calculateReward
  rw [h]

/-- Witness for the amended C8: the same configuration in two different
mutable states (before and after an update) gives the same reward. -/
theorem C8_reward_pure_witness :
    ((update (make DEFAULT_OFFERS (1/10) (9/10) (1/10) 0)
        ("discount_10") 1 5).arms
      = (make DEFAULT_OFFERS (1/10) (9/10) (1/10) 0).arms)
    ∧ calculateReward
        (update (make DEFAULT_OFFERS (1/10) (9/10) (1/10) 0)
          ("discount_10") 1 5)
        ("discount_20") UserResponse.accepted 100 (1/5)
      = calculateReward (make DEFAULT_OFFERS (1/10) (9/10) (1/10) 0)
        ("discount_20") UserResponse.accepted 100 (1/5) :=
  ⟨update_arms _ _ _ _,
   C8_reward_pure_in_args_and_arms _ _ _ _ _ _ (update_arms _ _ _ _)⟩

/-- Claim C9 counterexample: the exploration rate does not remain in the unit
interval in every reachable state: the constructor accepts a rate of 2
unchanged, and decayEpsilon with decay rate 20 drives the default rate of one
tenth to 2, which exceeds 1. -/
theorem C9_epsilon_exceeds_one_cex :
    (make [] (1/10) (9/10) 2 0).epsilon = 2
    ∧ (decayEpsilon (make DEFAULT_OFFERS (1/10) (9/10) (1/10) 0) 20).epsilon
        = 2
    ∧ ¬ ((2 : ℚ) ≤ 1) := by
  refine ⟨make_epsilon [] (1/10) (9/10) 2 0, ?_, by norm_num⟩
  show max (1/100)
      ((make DEFAULT_OFFERS (1/10) (9/10) (1/10) 0).epsilon * 20) = 2
  rw [make_epsilon]
  norm_num [max_def]

/-- Claim C9 as amended: if the bandit is constructed with an exploration
rate in the unit interval and every decayEpsilon call uses a decay rate in
the unit interval, the exploration rate remains in the unit interval across
any sequence of update, decay and load operations; and a decayEpsilon call
never leaves the rate below the fixed minimum of one hundredth, so repeated
decay never drives it below that floor. -/
theorem C9_epsilon_bounds (arms : List Offer) (alpha gamma epsilon : ℚ)
    (t0 : ℕ) (ops : List BanditOp)
    (h0 : 0 ≤ epsilon) (h1 : epsilon ≤ 1)
    (hr : ∀ rate, BanditOp.decay rate ∈ ops → 0 ≤ rate ∧ rate ≤ 1) :
    (0 ≤ (runOps ops (make arms alpha gamma epsilon t0)).epsilon
      ∧ (runOps ops (make arms alpha gamma epsilon t0)).epsilon ≤ 1)
    ∧ ∀ (b : QLearningBandit) (rate : ℚ),
        1/100 ≤ (decayEpsilon b rate).epsilon := by
  constructor
  · exact runOps_epsilon_bounds ops (make arms alpha gamma epsilon t0)
      (by rw [make_epsilon]; exact h0) (by rw [make_epsilon]; exact h1) hr
  · intro b rate
    exact le_max_left _ _

/-- Witness for the amended C9 at a concrete operation sequence. -/
theorem C9_epsilon_bounds_witness :
    ((0 : ℚ) ≤ 1/10 ∧ (1/10 : ℚ) ≤ 1)
    ∧ (0 ≤ (runOps [BanditOp.decay (1/2), BanditOp.upd ("discount_10") 1 3,
            BanditOp.decay (99/100)]
          (make DEFAULT_OFFERS (1/10) (9/10) (1/10) 0)).epsilon
      ∧ (runOps [BanditOp.decay (1/2), BanditOp.upd ("discount_10") 1 3,
            BanditOp.decay (99/100)]
          (make DEFAULT_OFFERS (1/10) (9/10) (1/10) 0)).epsilon ≤ 1) :=
  ⟨⟨by norm_num, by norm_num⟩,
   (C9_epsilon_bounds DEFAULT_OFFERS (1/10) (9/10) (1/10) 0
      [BanditOp.decay (1/2), BanditOp.upd ("discount_10") 1 3,
       BanditOp.decay (99/100)]
      (by norm_num) (by norm_num)
      (by
        intro rate hmem
        simp at hmem
        rcases hmem with rfl | rfl <;> norm_num)).1⟩

/-- Claim C10: when calculateReward is called with an arm id outside the
configured arm set, it returns exactly zero for every response, revenue value
and cost fraction: the cost penalty and the clamp are not applied on this
path. -/
theorem C10_unknown_arm_reward_zero (b : QLearningBandit) (actionId : String)
    (userResponse : UserResponse) (mrrValue offerCost : ℚ)
    (h : actionId ∉ b.arms.map Offer.id) :
    calculateReward b actionId userResponse mrrValue offerCost = 0 := by
  have hfind : b.arms.find? (fun arm => arm.id == actionId) = none := by
    rw [List.find?_eq_none]
    intro a ha hbeq
    exact h (List.mem_map.mpr ⟨a, ha, by simpa using hbeq⟩)
  simp [calculateReward, hfind]

/-- Witness for C10 at a concrete input. -/
theorem C10_unknown_arm_reward_zero_witness :
    (("unknown_arm")
        ∉ (make DEFAULT_OFFERS (1/10) (9/10) (1/10) 0).arms.map Offer.id)
    ∧ calculateReward (make DEFAULT_OFFERS (1/10) (9/10) (1/10) 0)
        ("unknown_arm") UserResponse.declined 50 (1/5) = 0 :=
  ⟨by decide, C10_unknown_arm_reward_zero _ _ _ _ _ (by decide)⟩
